import Mathlib

/-!
Verification of the talos excerpt: the `files.EtcFileSpec` resource type
(`pkg/machinery/resources/files/etcfile_spec.go`), the `UpdateEndpointSuite`
integration-test helpers (`internal/integration/api/update-endpoint.go`), and
the resource-store contract of the specification (the COSI store itself is not
part of the excerpt, so its operations are modelled from the spec).

Machine integers are modelled as `Nat`; byte slices as `List Nat`; Go errors
as `Option String` (with `none` standing for a nil error) or `Except String`.
-/

set_option autoImplicit false

/-! ## Resource metadata (cosi resource package, as used by the excerpt) -/

/-- Modelled from the spec: a resource Version is a monotonically increasing
integer token; `resource.VersionUndefined` is the distinguished value carried
by a freshly initialized resource before any write. We model a version as
`Option Nat` with `none` for the undefined version. -/
abbrev Version := Option Nat

/-- Modelled from the spec: the undefined version token of a fresh resource. -/
def VersionUndefined : Version := none

/-- Modelled from the spec: resource metadata is the addressing and versioning
data (Namespace, Type, ID, Version) shared by all resources. -/
structure Metadata where
  ns : String
  type : String
  id : String
  version : Version
  deriving DecidableEq, Repr

/-- Modelled from the spec: the generic typed resource container, a metadata
plus a schema-typed spec payload (`typed.Resource` of the cosi runtime). -/
structure TypedResource (Spec : Type) where
  md : Metadata
  spec : Spec
  deriving DecidableEq, Repr

/-- Modelled from the spec: a print column of a resource definition
(`meta.PrintColumn`). -/
structure PrintColumn where
  name : String
  jsonPath : String
  deriving DecidableEq, Repr

/-- Modelled from the spec: the registration data a concrete resource type
supplies — a type name, a default namespace, aliases and print columns
(`meta.ResourceDefinitionSpec`, restricted to the fields the excerpt sets). -/
structure ResourceDefinitionSpec where
  type : String
  aliases : List String
  defaultNamespace : String
  printColumns : List PrintColumn
  deriving DecidableEq, Repr

/-! ## files.EtcFileSpec (pkg/machinery/resources/files/etcfile_spec.go) -/

/-- EtcFileSpecType is type of EtcFile resource. -/
def EtcFileSpecType : String := "EtcFileSpecs.files.talos.dev"

/-- Modelled from the spec: NamespaceName of the files package is not in the
excerpt; the spec scenario uses namespace `files`. -/
def NamespaceName : String := "files"

/-- EtcFileSpecSpec describes contents of the file which should be put to the
etc directory: a byte slice and a file mode (`fs.FileMode`, a machine word,
modelled as `Nat`). The Go zero value has nil Contents and Mode 0. -/
structure EtcFileSpecSpec where
  contents : List Nat
  mode : Nat
  deriving DecidableEq, Repr

/-- NewEtcFileSpec initializes a EtcFileSpec resource: metadata with the given
namespace and id, type `EtcFileSpecType`, version `resource.VersionUndefined`,
and the zero value of `EtcFileSpecSpec`. -/
def NewEtcFileSpec (ns : String) (id : String) : TypedResource EtcFileSpecSpec :=
  { md := { ns := ns, type := EtcFileSpecType, id := id, version := VersionUndefined },
    spec := { contents := [], mode := 0 } }

/-- EtcFileSpecMD provides auxiliary methods for EtcFileSpec. -/
structure EtcFileSpecMD where
  deriving DecidableEq, Repr

/-- ResourceDefinition implements the meta.ResourceDefinitionProvider
interface: it ignores both arguments and returns the fixed registration data
of the EtcFileSpec type. -/
def EtcFileSpecMD.ResourceDefinition (_ : EtcFileSpecMD) (_ : Metadata)
    (_ : EtcFileSpecSpec) : ResourceDefinitionSpec :=
  { type := EtcFileSpecType
    aliases := []
    defaultNamespace := NamespaceName
    printColumns := [] }

/-! ## Node configuration (v1alpha1.Config as used by updateEndpointURL) -/

/-- Modelled from the spec: the control-plane endpoint of the cluster
configuration. The `url.URL` field is modelled by its serialized string (the
test reads it back with `URL.String()` and writes it with `url.Parse`). -/
structure ControlPlaneEndpoint where
  url : String
  deriving DecidableEq, Repr

/-- Modelled from the spec: `ClusterConfig.ControlPlane` — the endpoint plus
the rest of the control-plane section, opaque to the excerpt. -/
structure ControlPlaneConfig where
  endpoint : ControlPlaneEndpoint
  localAPIServerPort : Nat
  deriving DecidableEq, Repr

/-- Modelled from the spec: the cluster section of `v1alpha1.Config` — the
control-plane subsection plus the remaining fields, opaque to the excerpt. -/
structure ClusterConfig where
  controlPlane : ControlPlaneConfig
  clusterRest : String
  deriving DecidableEq, Repr

/-- Modelled from the spec: `v1alpha1.Config`, the node configuration the test
reads from the node and applies back; only `ClusterConfig.ControlPlane.Endpoint`
is touched by the excerpt, all other sections are opaque remainders. -/
structure Config where
  configVersion : String
  machineConfig : String
  clusterConfig : ClusterConfig
  deriving DecidableEq, Repr

/-- updateEndpointURL reads the node configuration, remembers the serialized
control-plane endpoint URL, replaces that URL with `newURL`, applies the
modified configuration to the node, and returns the old URL. The node state is
its applied configuration; the function returns the old URL together with the
configuration applied to the node. -/
def updateEndpointURL (nodeConfig : Config) (newURL : String) : String × Config :=
  let oldURL := nodeConfig.clusterConfig.controlPlane.endpoint.url
  (oldURL,
    { nodeConfig with
      clusterConfig :=
        { nodeConfig.clusterConfig with
          controlPlane :=
            { nodeConfig.clusterConfig.controlPlane with
              endpoint := { url := newURL } } } })

/-! ## Kubernetes node lookup helpers (update-endpoint.go) -/

/-- Modelled from the spec: `corev1.ConditionStatus` is a string
(values such as True, False, Unknown). -/
abbrev ConditionStatus := String

/-- Modelled from the spec: `corev1.ConditionTrue`. -/
def ConditionTrue : ConditionStatus := "True"

/-- Modelled from the spec: `corev1.NodeInternalIP`, the address type tag. -/
def NodeInternalIP : String := "InternalIP"

/-- Modelled from the spec: `corev1.NodeReady`, the readiness condition type. -/
def NodeReady : String := "Ready"

/-- Modelled from the spec: a `corev1.NodeAddress` — an address type tag and
an address string. -/
structure NodeAddress where
  type : String
  address : String
  deriving DecidableEq, Repr

/-- Modelled from the spec: a `corev1.NodeCondition` — a condition type and
its status. -/
structure NodeCondition where
  type : String
  status : ConditionStatus
  deriving DecidableEq, Repr

/-- Modelled from the spec: a `corev1.Node`, restricted to the Status fields
the excerpt reads — addresses and conditions. -/
structure K8sNode where
  name : String
  addresses : List NodeAddress
  conditions : List NodeCondition
  deriving DecidableEq, Repr

/-- The inner loop of getNodeByInternalIP: does any address of the node have
type NodeInternalIP and the given address value? -/
def hasMatchingInternalIP : List NodeAddress → String → Bool
  | [], _ => false
  | a :: rest, internalIP =>
    if a.type = NodeInternalIP ∧ a.address = internalIP then true
    else hasMatchingInternalIP rest internalIP

/-- getNodeByInternalIP scans the listed nodes in order and returns the first
one having a Status address of type NodeInternalIP equal to `internalIP`;
when none matches it returns the not-found error. -/
def getNodeByInternalIP : List K8sNode → String → Except String K8sNode
  | [], internalIP => .error ("node with internal IP " ++ internalIP ++ " not found")
  | n :: rest, internalIP =>
    if hasMatchingInternalIP n.addresses internalIP then .ok n
    else getNodeByInternalIP rest internalIP

/-- The condition loop of getNodeReadinessStatus: the status of the first
condition with Type NodeReady, if any. -/
def findReadyCondition : List NodeCondition → Option ConditionStatus
  | [] => none
  | c :: rest => if c.type = NodeReady then some c.status else findReadyCondition rest

/-- getNodeReadinessStatus finds the node by internal IP and returns the
status of its first NodeReady condition; on lookup failure or a missing
readiness condition it returns the empty status together with a non-nil
error (the Go function returns the pair `(ConditionStatus, error)`). -/
def getNodeReadinessStatus (nodes : List K8sNode) (nodeInternalIP : String) :
    ConditionStatus × Option String :=
  match getNodeByInternalIP nodes nodeInternalIP with
  | .error e => ("", some e)
  | .ok node =>
    match findReadyCondition node.conditions with
    | some st => (st, none)
    | none => ("", some ("node " ++ nodeInternalIP ++ " has no readiness condition"))

/-- waitForNodeReadinessStatus polls getNodeReadinessStatus under
`retry.Constant(5 minutes)`: each element of `polls` is the observation of one
poll within the deadline. A poll returning an error aborts the retry with that
error (it is not an ExpectedError); a status failing `checkFn` is an
ExpectedError and the loop retries; exhausting the deadline yields the retry
timeout error. The result is the returned Go error, `none` meaning nil. -/
def waitForNodeReadinessStatus (checkFn : ConditionStatus → Bool) :
    List (ConditionStatus × Option String) → Option String
  | [] => some "retry: timeout after 5m0s"
  | (st, err) :: rest =>
    match err with
    | some e => some e
    | none => if checkFn st then none else waitForNodeReadinessStatus checkFn rest

/-! ## Resource store (modelled from the spec, section 4.1) -/

/-- Modelled from the spec: the resource lifecycle phase, Running or
Tearing Down. -/
inductive Phase where
  | running
  | tearingDown
  deriving DecidableEq, Repr

/-- Modelled from the spec: a ResourceID is the triple
(Namespace, Type, ID) uniquely addressing one resource. -/
structure ResourceID where
  ns : String
  type : String
  id : String
  deriving DecidableEq, Repr

/-- Modelled from the spec: a stored resource — its id, an integer Version,
a Phase, a finalizer set (as a list of tokens) and an opaque Spec payload. -/
structure StoreResource where
  rid : ResourceID
  version : Nat
  phase : Phase
  finalizers : List String
  payload : String
  deriving DecidableEq, Repr

/-- Modelled from the spec: the store error taxonomy used by Update and
Destroy — NotFound, VersionConflict (stale optimistic write) and Conflict
(destroy with finalizers present or wrong phase, or a spec mutation of a
tearing-down resource). -/
inductive StoreError where
  | notFound
  | versionConflict
  | conflict
  deriving DecidableEq, Repr

/-- Modelled from the spec: the in-memory store, keyed by ResourceID. -/
abbrev Store := List StoreResource

/-- Modelled from the spec: Get — point lookup by id. -/
def getResource : Store → ResourceID → Option StoreResource
  | [], _ => none
  | r :: rest, rid => if r.rid = rid then some r else getResource rest rid

/-- Replace the resource stored under `rid` by `r2` (helper of Update). -/
def setResource : Store → ResourceID → StoreResource → Store
  | [], _, _ => []
  | r :: rest, rid, r2 => if r.rid = rid then r2 :: rest else r :: setResource rest rid r2

/-- Remove every entry stored under `rid` (helper of Destroy). -/
def removeResource : Store → ResourceID → Store
  | [], _ => []
  | r :: rest, rid =>
    if r.rid = rid then removeResource rest rid else r :: removeResource rest rid

/-- Modelled from the spec: `Update(id, expectedVersion, mutateFn)` — fails
with NotFound when the id is absent, with Conflict when the resource is
Tearing Down (no further Spec mutations), with VersionConflict when
`expectedVersion` is stale; otherwise applies `mutateFn` to the payload,
bumps the Version by one and returns the new store with the new Version. -/
def update (s : Store) (rid : ResourceID) (expectedVersion : Nat)
    (mutateFn : String → String) : Except StoreError (Store × Nat) :=
  match getResource s rid with
  | none => .error .notFound
  | some r =>
    if r.phase = .tearingDown then .error .conflict
    else if r.version ≠ expectedVersion then .error .versionConflict
    else
      .ok (setResource s rid { r with payload := mutateFn r.payload, version := r.version + 1 },
        r.version + 1)

/-- Modelled from the spec: `Destroy(id, expectedVersion)` — fails with
NotFound when absent, with Conflict when Finalizers is non-empty or Phase is
not Tearing Down, with VersionConflict on a stale version; otherwise
physically removes the entry from the store. -/
def destroy (s : Store) (rid : ResourceID) (expectedVersion : Nat) :
    Except StoreError Store :=
  match getResource s rid with
  | none => .error .notFound
  | some r =>
    if r.phase ≠ .tearingDown ∨ r.finalizers ≠ [] then .error .conflict
    else if r.version ≠ expectedVersion then .error .versionConflict
    else .ok (removeResource s rid)

/-! ## Store lemmas -/

/-- A successful Get returns a resource stored under the requested id. -/
theorem getResource_rid {s : Store} {rid : ResourceID} {r : StoreResource}
    (h : getResource s rid = some r) : r.rid = rid := by
  induction s with
  | nil => simp [getResource] at h
  | cons a rest ih =>
    by_cases hc : a.rid = rid
    · simp only [getResource, if_pos hc] at h
      injection h with h2
      rw [← h2]
      exact hc
    · simp only [getResource, if_neg hc] at h
      exact ih h

/-- Get after a replacing write under the same id returns the written value. -/
theorem getResource_setResource_self {s : Store} {rid : ResourceID}
    {r r2 : StoreResource} (h : getResource s rid = some r) (h2 : r2.rid = rid) :
    getResource (setResource s rid r2) rid = some r2 := by
  induction s with
  | nil => simp [getResource] at h
  | cons a rest ih =>
    by_cases hc : a.rid = rid
    · simp [setResource, if_pos hc, getResource, h2]
    · simp only [getResource, if_neg hc] at h
      simp only [setResource, if_neg hc, getResource, if_neg hc]
      exact ih h

/-- Get after physical removal of the id finds nothing. -/
theorem getResource_removeResource (s : Store) (rid : ResourceID) :
    getResource (removeResource s rid) rid = none := by
  induction s with
  | nil => simp [removeResource, getResource]
  | cons a rest ih =>
    by_cases hc : a.rid = rid
    · simpa [removeResource, if_pos hc] using ih
    · simp [removeResource, if_neg hc, getResource, ih]

/-! ## Claim theorems: store -/

/-- C1: for every successful Update the returned Version is strictly greater
than the resource's prior Version — in fact exactly the prior Version plus
one, so an expected Version V is bumped to V + 1 — and a subsequent Update
passing the prior (now-stale) Version V fails with VersionConflict. -/
theorem update_bumps_version_and_stale_retry_conflicts
    (s : Store) (rid : ResourceID) (v : Nat) (f g : String → String)
    (r : StoreResource) (hr : getResource s rid = some r)
    (s1 : Store) (v1 : Nat) (h : update s rid v f = .ok (s1, v1)) :
    r.version < v1 ∧ v1 = v + 1 ∧ update s1 rid v g = .error .versionConflict := by
  simp only [update, hr] at h
  by_cases hp : r.phase = .tearingDown
  · rw [if_pos hp] at h
    cases h
  · rw [if_neg hp] at h
    by_cases hv : r.version ≠ v
    · rw [if_pos hv] at h
      cases h
    · rw [if_neg hv] at h
      push_neg at hv
      rw [Except.ok.injEq, Prod.mk.injEq] at h
      obtain ⟨hs1, hv1⟩ := h
      subst hs1
      subst hv1
      refine ⟨Nat.lt_succ_self _, by rw [hv], ?_⟩
      have hrid2 :
          ({ r with payload := f r.payload, version := r.version + 1 } :
            StoreResource).rid = rid := by
        show r.rid = rid
        exact getResource_rid hr
      simp only [update, getResource_setResource_self hr hrid2]
      rw [if_neg (by simpa using hp)]
      rw [if_pos (by simp [hv])]

/-- C1 witness: a one-resource store at Version 3; Update with expected
Version 3 returns Version 4 = 3 + 1, and a retry with the stale Version 3
fails with VersionConflict. -/
theorem update_bumps_version_and_stale_retry_conflicts_witness :
    (3 : Nat) < 4 ∧ (4 : Nat) = 3 + 1 ∧
      update [⟨⟨"k8s", "Endpoint", "cp"⟩, 4, .running, [], "https://new:40443"⟩]
        ⟨"k8s", "Endpoint", "cp"⟩ 3 (fun p => p) = .error .versionConflict :=
  update_bumps_version_and_stale_retry_conflicts
    [⟨⟨"k8s", "Endpoint", "cp"⟩, 3, .running, [], "https://old:6443"⟩]
    ⟨"k8s", "Endpoint", "cp"⟩ 3 (fun _ => "https://new:40443") (fun p => p)
    ⟨⟨"k8s", "Endpoint", "cp"⟩, 3, .running, [], "https://old:6443"⟩ rfl
    [⟨⟨"k8s", "Endpoint", "cp"⟩, 4, .running, [], "https://new:40443"⟩] 4 rfl

/-- C2: Destroy succeeds exactly when the resource's finalizer set is empty,
its Phase is Tearing Down and the expected version matches; with a non-empty
finalizer set every attempt fails with the same Conflict error; and a
successful Destroy physically removes the resource from the store. -/
theorem destroy_requires_tearingDown_and_no_finalizers
    (s : Store) (rid : ResourceID) (v : Nat)
    (r : StoreResource) (hr : getResource s rid = some r) :
    ((∃ s1, destroy s rid v = .ok s1) ↔
      (r.phase = .tearingDown ∧ r.finalizers = [] ∧ r.version = v))
    ∧ (r.finalizers ≠ [] → destroy s rid v = .error .conflict)
    ∧ (∀ s1, destroy s rid v = .ok s1 → getResource s1 rid = none) := by
  simp only [destroy, hr]
  by_cases hc : r.phase ≠ .tearingDown ∨ r.finalizers ≠ []
  · rw [if_pos hc]
    refine ⟨?_, fun _ => rfl, fun s1 h => by cases h⟩
    constructor
    · rintro ⟨s1, h⟩
      cases h
    · rintro ⟨h1, h2, h3⟩
      rcases hc with hc | hc
      · exact absurd h1 hc
      · exact absurd h2 hc
  · push_neg at hc
    obtain ⟨h1, h2⟩ := hc
    rw [if_neg (by simp [h1, h2])]
    by_cases hv : r.version ≠ v
    · rw [if_pos hv]
      refine ⟨?_, fun hfin => absurd h2 hfin, fun s1 h => by cases h⟩
      constructor
      · rintro ⟨s1, h⟩
        cases h
      · rintro ⟨_, _, h3⟩
        exact absurd h3 hv
    · rw [if_neg hv]
      push_neg at hv
      refine ⟨?_, fun hfin => absurd h2 hfin, ?_⟩
      · exact ⟨fun _ => ⟨h1, h2, hv⟩, fun _ => ⟨removeResource s rid, rfl⟩⟩
      · intro s1 h
        rw [Except.ok.injEq] at h
        rw [← h]
        exact getResource_removeResource s rid

/-- C2 witness: a tearing-down resource holding one finalizer cannot be
destroyed — the attempt fails with Conflict. -/
theorem destroy_requires_tearingDown_and_no_finalizers_witness :
    destroy [⟨⟨"files", "EtcFileSpecs.files.talos.dev", "hosts"⟩, 1, .tearingDown,
        ["file-writer"], "127.0.0.1 localhost"⟩]
      ⟨"files", "EtcFileSpecs.files.talos.dev", "hosts"⟩ 1 = .error .conflict :=
  (destroy_requires_tearingDown_and_no_finalizers
    [⟨⟨"files", "EtcFileSpecs.files.talos.dev", "hosts"⟩, 1, .tearingDown,
        ["file-writer"], "127.0.0.1 localhost"⟩]
    ⟨"files", "EtcFileSpecs.files.talos.dev", "hosts"⟩ 1
    ⟨⟨"files", "EtcFileSpecs.files.talos.dev", "hosts"⟩, 1, .tearingDown,
        ["file-writer"], "127.0.0.1 localhost"⟩ rfl).2.1 (by simp)

/-! ## Claim theorems: EtcFileSpec resource -/

/-- C3: EtcFileSpecMD.ResourceDefinition returns, for every metadata and
spec argument, the same registration data — Type
EtcFileSpecs.files.talos.dev, DefaultNamespace NamespaceName, and empty
Aliases and PrintColumns. -/
theorem EtcFileSpecMD_ResourceDefinition_constant (m : EtcFileSpecMD)
    (md : Metadata) (s : EtcFileSpecSpec) :
    m.ResourceDefinition md s =
      { type := "EtcFileSpecs.files.talos.dev"
        aliases := []
        defaultNamespace := NamespaceName
        printColumns := [] } := rfl

/-- C7: NewEtcFileSpec namespace id returns a resource whose metadata is
exactly (namespace, EtcFileSpecs.files.talos.dev, id) with the undefined
version, and whose spec is the zero value — nil contents and mode 0. -/
theorem NewEtcFileSpec_fresh (ns : String) (id : String) :
    (NewEtcFileSpec ns id).md.ns = ns
    ∧ (NewEtcFileSpec ns id).md.type = "EtcFileSpecs.files.talos.dev"
    ∧ (NewEtcFileSpec ns id).md.id = id
    ∧ (NewEtcFileSpec ns id).md.version = VersionUndefined
    ∧ (NewEtcFileSpec ns id).spec.contents = []
    ∧ (NewEtcFileSpec ns id).spec.mode = 0 :=
  ⟨rfl, rfl, rfl, rfl, rfl, rfl⟩

/-! ## Claim theorems: endpoint update -/

/-- C4: updateEndpointURL returns the endpoint URL the configuration held
before the call, and updating again with that returned URL restores the
configuration exactly — the round trip is the identity. -/
theorem updateEndpointURL_roundtrip (c : Config) (u : String) :
    (updateEndpointURL c u).1 = c.clusterConfig.controlPlane.endpoint.url
    ∧ (updateEndpointURL (updateEndpointURL c u).2 (updateEndpointURL c u).1).2 = c :=
  ⟨rfl, rfl⟩

/-- C5: the configuration applied by updateEndpointURL differs from the one
read only in the control-plane endpoint URL, which becomes the new URL;
every other field of the configuration is unchanged. -/
theorem updateEndpointURL_frame (c : Config) (u : String) :
    ((updateEndpointURL c u).2).clusterConfig.controlPlane.endpoint.url = u
    ∧ ((updateEndpointURL c u).2).configVersion = c.configVersion
    ∧ ((updateEndpointURL c u).2).machineConfig = c.machineConfig
    ∧ ((updateEndpointURL c u).2).clusterConfig.clusterRest = c.clusterConfig.clusterRest
    ∧ ((updateEndpointURL c u).2).clusterConfig.controlPlane.localAPIServerPort
        = c.clusterConfig.controlPlane.localAPIServerPort :=
  ⟨rfl, rfl, rfl, rfl, rfl⟩

/-- C6: waitForNodeReadinessStatus returns a nil error only if some poll
within the deadline observed a readiness status satisfying checkFn; when
every poll up to the deadline yields a status failing checkFn, it returns a
non-nil error. -/
theorem waitForNodeReadinessStatus_poll_contract (checkFn : ConditionStatus → Bool)
    (polls : List (ConditionStatus × Option String)) :
    (waitForNodeReadinessStatus checkFn polls = none →
      ∃ p ∈ polls, p.2 = none ∧ checkFn p.1 = true)
    ∧ ((∀ p ∈ polls, p.2 = none ∧ checkFn p.1 = false) →
      waitForNodeReadinessStatus checkFn polls ≠ none) := by
  induction polls with
  | nil => simp [waitForNodeReadinessStatus]
  | cons p rest ih =>
    obtain ⟨st, err⟩ := p
    cases err with
    | some e => simp [waitForNodeReadinessStatus]
    | none =>
      by_cases hc : checkFn st = true
      · constructor
        · intro _
          exact ⟨(st, none), by simp, rfl, hc⟩
        · intro hall
          have := (hall (st, none) (by simp)).2
          rw [hc] at this
          cases this
      · rw [Bool.not_eq_true] at hc
        constructor
        · intro h
          rw [waitForNodeReadinessStatus] at h
          simp only [hc] at h
          obtain ⟨q, hq, h2⟩ := ih.1 (by simpa using h)
          exact ⟨q, by simp [hq], h2⟩
        · intro hall
          rw [waitForNodeReadinessStatus]
          simp only [hc]
          simpa using ih.2 (fun q hq => hall q (by simp [hq]))

/-- C6 witness: with checkFn requiring status True, a single poll observing
status False (with nil error) exhausts the deadline and the helper returns a
non-nil error. -/
theorem waitForNodeReadinessStatus_poll_contract_witness :
    waitForNodeReadinessStatus (fun st => st == ConditionTrue) [("False", none)] ≠ none :=
  (waitForNodeReadinessStatus_poll_contract (fun st => st == ConditionTrue)
    [("False", none)]).2 (by decide)

/-- C8: getNodeByInternalIP returns a listed node carrying a NodeInternalIP
address equal to the argument whenever one exists, and returns the error
node with internal IP ... not found exactly when no listed node has such an
address. -/
theorem getNodeByInternalIP_contract (nodes : List K8sNode) (internalIP : String) :
    ((∃ n ∈ nodes, hasMatchingInternalIP n.addresses internalIP = true) →
      ∃ n, getNodeByInternalIP nodes internalIP = .ok n ∧ n ∈ nodes
        ∧ hasMatchingInternalIP n.addresses internalIP = true)
    ∧ (getNodeByInternalIP nodes internalIP
        = .error ("node with internal IP " ++ internalIP ++ " not found")
      ↔ ∀ n ∈ nodes, hasMatchingInternalIP n.addresses internalIP = false) := by
  induction nodes with
  | nil => simp [getNodeByInternalIP]
  | cons n rest ih =>
    by_cases hc : hasMatchingInternalIP n.addresses internalIP = true
    · refine ⟨fun _ => ⟨n, ?_, by simp, hc⟩, ?_⟩
      · rw [getNodeByInternalIP, if_pos hc]
      · constructor
        · intro h
          rw [getNodeByInternalIP, if_pos hc] at h
          cases h
        · intro hall
          have := hall n (by simp)
          rw [hc] at this
          cases this
    · rw [Bool.not_eq_true] at hc
      have hstep : getNodeByInternalIP (n :: rest) internalIP
          = getNodeByInternalIP rest internalIP := by
        rw [getNodeByInternalIP, if_neg (by simp [hc])]
      constructor
      · rintro ⟨m, hm, hmatch⟩
        rcases List.mem_cons.mp hm with rfl | hm2
        · rw [hc] at hmatch
          cases hmatch
        · obtain ⟨m2, h1, h2, h3⟩ := ih.1 ⟨m, hm2, hmatch⟩
          exact ⟨m2, by rw [hstep, h1], by simp [h2], h3⟩
      · rw [hstep]
        constructor
        · intro h m hm
          rcases List.mem_cons.mp hm with rfl | hm2
          · exact hc
          · exact ih.2.mp h m hm2
        · intro hall
          exact ih.2.mpr (fun m hm => hall m (by simp [hm]))

/-- C8 witness: a one-node list whose node has the InternalIP 10.5.0.2 —
lookup of that IP returns that node. -/
theorem getNodeByInternalIP_contract_witness :
    ∃ n, getNodeByInternalIP
        ([⟨"n1", [⟨"InternalIP", "10.5.0.2"⟩], [⟨"Ready", "True"⟩]⟩] : List K8sNode)
        "10.5.0.2" = .ok n
      ∧ n ∈ ([⟨"n1", [⟨"InternalIP", "10.5.0.2"⟩], [⟨"Ready", "True"⟩]⟩] : List K8sNode)
      ∧ hasMatchingInternalIP n.addresses "10.5.0.2" = true :=
  (getNodeByInternalIP_contract
    ([⟨"n1", [⟨"InternalIP", "10.5.0.2"⟩], [⟨"Ready", "True"⟩]⟩] : List K8sNode)
    "10.5.0.2").1
    ⟨⟨"n1", [⟨"InternalIP", "10.5.0.2"⟩], [⟨"Ready", "True"⟩]⟩, by simp, by decide⟩

/-- C9: getNodeReadinessStatus returns the status of the first NodeReady
condition of the matched node with a nil error; when the node lookup fails it
propagates that error with an empty status, and when the node has no NodeReady
condition it returns an empty status with the no-readiness-condition error —
never a default status with a nil error. findReadyCondition is the first
NodeReady condition in the sense of List.find?. -/
theorem getNodeReadinessStatus_contract (nodes : List K8sNode) (ip : String) :
    (∀ node, getNodeByInternalIP nodes ip = .ok node →
      (∀ st, findReadyCondition node.conditions = some st →
        getNodeReadinessStatus nodes ip = (st, none))
      ∧ (findReadyCondition node.conditions = none →
        getNodeReadinessStatus nodes ip
          = ("", some ("node " ++ ip ++ " has no readiness condition"))))
    ∧ (∀ e, getNodeByInternalIP nodes ip = .error e →
      getNodeReadinessStatus nodes ip = ("", some e))
    ∧ (∀ conds : List NodeCondition, findReadyCondition conds
        = (conds.find? (fun c => decide (c.type = NodeReady))).map NodeCondition.status) := by
  refine ⟨?_, ?_, ?_⟩
  · intro node hnode
    constructor
    · intro st hst
      simp only [getNodeReadinessStatus, hnode, hst]
    · intro hst
      simp only [getNodeReadinessStatus, hnode, hst]
  · intro e he
    simp only [getNodeReadinessStatus, he]
  · intro conds
    induction conds with
    | nil => rfl
    | cons c rest ih =>
      by_cases hc : c.type = NodeReady
      · rw [findReadyCondition, if_pos hc, List.find?_cons_of_pos _ (by simp [hc])]
        rfl
      · rw [findReadyCondition, if_neg hc, List.find?_cons_of_neg _ (by simp [hc])]
        exact ih

/-- C9 witness: with a single node holding one Ready=True condition, the
readiness status of its IP is True with a nil error. -/
theorem getNodeReadinessStatus_contract_witness :
    getNodeReadinessStatus
      ([⟨"n2", [⟨"InternalIP", "10.5.0.3"⟩], [⟨"Ready", "True"⟩]⟩] : List K8sNode)
      "10.5.0.3" = ("True", none) :=
  ((getNodeReadinessStatus_contract
      ([⟨"n2", [⟨"InternalIP", "10.5.0.3"⟩], [⟨"Ready", "True"⟩]⟩] : List K8sNode)
      "10.5.0.3").1
    ⟨"n2", [⟨"InternalIP", "10.5.0.3"⟩], [⟨"Ready", "True"⟩]⟩ rfl).1 "True" rfl
